import Mathlib

/-!
Shallow embedding of the incident / equipment-status reconciliation and
reporting logic of the GestionMonitoreo repository
(`server/storage.ts`, `server/routes.ts`, `shared/schema.ts`),
with theorems checking the natural-language specification against it.

Conventions of the embedding:
* Database tables are lists of rows inside a `Store`; generated ids are
  natural numbers drawn from a counter.
* Incident timestamps (`reportedAt`, `resolvedAt`, `updatedAt`) are
  modelled at day granularity, as day numbers (days since 1970-01-01),
  because the report logic only ever buckets them by week or month.
  Document expiry timestamps are modelled in milliseconds because
  `getExpiringDocuments` takes a ceiling of a millisecond difference.
* JS falsiness of optional strings (`x || null` collapses undefined and
  the empty string to null) is modelled by `jsOrNull`.
-/

namespace GM

/-! ### Calendar arithmetic (model of the date handling done via date-fns) -/

/-- A proleptic-Gregorian civil date. -/
structure CivilDate where
  year : Int
  month : Int
  day : Int
deriving DecidableEq, Repr

/-- Day number (days since 1970-01-01) of a civil date, following the
standard `days_from_civil` algorithm; every division acts on
non-negative operands. -/
def daysFromCivil (dt : CivilDate) : Int :=
  let y := if dt.month ≤ 2 then dt.year - 1 else dt.year
  let era := (if 0 ≤ y then y else y - 399).ediv 400
  let yoe := y - era * 400
  let mp := if 2 < dt.month then dt.month - 3 else dt.month + 9
  let doy := (153 * mp + 2).ediv 5 + dt.day - 1
  let doe := yoe * 365 + yoe.ediv 4 - yoe.ediv 100 + doy
  era * 146097 + doe - 719468

/-- Civil date of a day number, the inverse `civil_from_days` algorithm. -/
def civilFromDays (n : Int) : CivilDate :=
  let z := n + 719468
  let era := (if 0 ≤ z then z else z - 146096).ediv 146097
  let doe := z - era * 146097
  let yoe := (doe - doe.ediv 1460 + doe.ediv 36524 - doe.ediv 146096).ediv 365
  let y := yoe + era * 400
  let doy := doe - (365 * yoe + yoe.ediv 4 - yoe.ediv 100)
  let mp := (5 * doy + 2).ediv 153
  let d := doy - (153 * mp + 2).ediv 5 + 1
  let m := if mp < 10 then mp + 3 else mp - 9
  ⟨if m ≤ 2 then y + 1 else y, m, d⟩

/-- JS `Date.getDay`: 0 = Sunday. Day 0 (1970-01-01) is a Thursday. -/
def dayOfWeek (n : Int) : Int := (n + 4) % 7

/-- Day number of the start of the week containing day `n`, given
`weekStartsOn` (0 = Sunday, the date-fns default; 1 = Monday, the option
used by the weekly report and the dashboard). -/
def startOfWeekDay (weekStartsOn n : Int) : Int :=
  n - ((dayOfWeek n - weekStartsOn + 7) % 7)

/-- Whether a year is a Gregorian leap year. -/
def isLeapYear (y : Int) : Bool :=
  (y % 4 == 0 && y % 100 != 0) || y % 400 == 0

/-- Number of days in a calendar month. -/
def daysInMonth (y m : Int) : Int :=
  if m == 2 then (if isLeapYear y then 29 else 28)
  else if m == 4 || m == 6 || m == 9 || m == 11 then 30
  else 31

/-- date-fns `getWeekYear` with default options
(`weekStartsOn = 0`, `firstWeekContainsDate = 1`). -/
def getWeekYear (n : Int) : Int :=
  let y := (civilFromDays n).year
  let fwNext := startOfWeekDay 0 (daysFromCivil ⟨y + 1, 1, 1⟩)
  let fwThis := startOfWeekDay 0 (daysFromCivil ⟨y, 1, 1⟩)
  if fwNext ≤ n then y + 1 else if fwThis ≤ n then y else y - 1

/-- date-fns `getWeek` with default options: the Sunday-starting week
number of the year, where week 1 is the week containing January 1.
`getMonthlyReport` calls this on each reported-at date. -/
def getWeekFns (n : Int) : Int :=
  let wy := getWeekYear n
  (startOfWeekDay 0 n - startOfWeekDay 0 (daysFromCivil ⟨wy, 1, 1⟩)).ediv 7 + 1

/-- ISO-8601 week-numbering year of a day number (weeks start Monday,
week 1 is the week containing January 4). Stated from the words of the
specification, for comparison with `getWeekFns`. -/
def specIsoWeekYear (n : Int) : Int :=
  let y := (civilFromDays n).year
  let fwNext := startOfWeekDay 1 (daysFromCivil ⟨y + 1, 1, 4⟩)
  let fwThis := startOfWeekDay 1 (daysFromCivil ⟨y, 1, 4⟩)
  if fwNext ≤ n then y + 1 else if fwThis ≤ n then y else y - 1

/-- ISO-8601 week number of the year of a day number. Stated from the
words of the specification ("ISO week number of year"), for comparison
with the grouping `getMonthlyReport` actually performs. -/
def specIsoWeek (n : Int) : Int :=
  let wy := specIsoWeekYear n
  (startOfWeekDay 1 n - startOfWeekDay 1 (daysFromCivil ⟨wy, 1, 4⟩)).ediv 7 + 1

/-! ### Data model (`shared/schema.ts`) -/

/-- Row of the `buses` table. -/
structure Bus where
  id : String
  busNumber : String
  plate : Option String
deriving DecidableEq, Repr

/-- Row of the `incidents` table. Timestamps are day numbers. -/
structure Incident where
  id : Nat
  busId : String
  equipmentType : String
  incidentType : String
  cameraChannel : Option String
  status : String
  description : Option String
  resolutionNotes : Option String
  reportedAt : Option Int
  resolvedAt : Option Int
  reporter : Option String
deriving DecidableEq, Repr

/-- Row of the `equipment_status` table. -/
structure EquipmentStatusRow where
  id : Nat
  busId : String
  equipmentType : String
  cameraChannel : Option String
  status : String
  lastIncidentId : Option Nat
  updatedAt : Int
deriving DecidableEq, Repr

/-- Row of the `bus_documents` table (the fields the expiry scanner
reads). `expiresAt` is in milliseconds. -/
structure BusDocument where
  id : Nat
  busId : String
  docType : String
  fileName : String
  expiresAt : Option Int
  driverId : Option String
deriving DecidableEq, Repr

/-- Row of the `drivers` table (the fields the expiry scanner reads). -/
structure Driver where
  id : String
  name : String
deriving DecidableEq, Repr

/-- The database state operated on by `DatabaseStorage`. -/
structure Store where
  buses : List Bus
  busDocuments : List BusDocument
  drivers : List Driver
  incidents : List Incident
  equipmentStatus : List EquipmentStatusRow
  nextId : Nat
deriving DecidableEq, Repr

/-- JS `x || null` on an optional string: undefined, null and the empty
string all collapse to null. -/
def jsOrNull : Option String → Option String
  | some s => if s = "" then none else some s
  | none => none

/-- JS truthiness of an optional string. -/
def jsTruthyStr : Option String → Bool
  | some s => s != ""
  | none => false

/-! ### Incident creation (`DatabaseStorage.createIncident`) -/

/-- The insert shape of the `incidents` table: every column except `id`,
`reportedAt` and `resolvedAt`; `status` defaults to "pending". -/
structure InsertIncident where
  busId : String
  equipmentType : String
  incidentType : String
  cameraChannel : Option String := none
  status : Option String := none
  description : Option String := none
  resolutionNotes : Option String := none
  reporter : Option String := none
deriving Repr

/-- `DatabaseStorage.createIncident` of `server/storage.ts`: insert the
incident row; then, when the incident is a camera incident with a
(truthy) channel and a matching `(busId, cameraChannel)` equipment-status
row exists, collapse the incident type onto the two projection status
values and point `lastIncidentId` at the new incident. -/
def createIncident (ins : InsertIncident) (now : Int) (st : Store) :
    Incident × Store :=
  let inc : Incident := {
    id := st.nextId
    busId := ins.busId
    equipmentType := ins.equipmentType
    incidentType := ins.incidentType
    cameraChannel := jsOrNull ins.cameraChannel
    status := ins.status.getD "pending"
    description := jsOrNull ins.description
    resolutionNotes := jsOrNull ins.resolutionNotes
    reportedAt := some now
    resolvedAt := none
    reporter := jsOrNull ins.reporter }
  let st1 : Store :=
    { st with incidents := st.incidents ++ [inc], nextId := st.nextId + 1 }
  if ins.equipmentType = "camera" ∧ jsTruthyStr ins.cameraChannel then
    match st1.equipmentStatus.find? (fun r =>
        r.busId == ins.busId && r.cameraChannel == ins.cameraChannel) with
    | some existing =>
      (inc, { st1 with equipmentStatus := st1.equipmentStatus.map (fun r =>
          if r.id == existing.id then
            { r with
              status := if ins.incidentType = "faulty" then "faulty" else "misaligned"
              lastIncidentId := some inc.id
              updatedAt := now }
          else r) })
    | none => (inc, st1)
  else (inc, st1)

/-! ### Incident update (`DatabaseStorage.updateIncident`) -/

/-- The slice of the optional-field incident update that reaches `updateIncident`: the
PATCH route supplies `status` and `resolutionNotes`, and `updateIncident`
itself may add `resolvedAt`. A `some` field is written, a `none` field is
left alone. -/
structure IncidentUpdate where
  status : Option String := none
  resolutionNotes : Option String := none
  resolvedAt : Option Int := none
deriving DecidableEq, Repr

/-- Apply an update object to an incident row, field by field. -/
def applyUpdate (i : Incident) (u : IncidentUpdate) : Incident :=
  { i with
    status := u.status.getD i.status
    resolutionNotes := match u.resolutionNotes with
      | some s => some s
      | none => i.resolutionNotes
    resolvedAt := match u.resolvedAt with
      | some t => some t
      | none => i.resolvedAt }

/-- `DatabaseStorage.updateIncident` of `server/storage.ts`. On the
transition to "resolved" — guarded by `resolvedAt` being currently
null — it stamps `resolvedAt` and, for a camera incident with a channel,
resets the first matching `(busId, cameraChannel)` equipment-status row
to "operational". -/
def updateIncident (id : Nat) (updates : IncidentUpdate) (now : Int)
    (st : Store) : Option (Incident × Store) :=
  match st.incidents.find? (fun i => i.id == id) with
  | none => none
  | some current =>
    let resolving := updates.status == some "resolved" && current.resolvedAt == none
    let resolveUpdate :=
      if resolving then { updates with resolvedAt := some now } else updates
    let es :=
      if resolving && current.equipmentType == "camera"
          && jsTruthyStr current.cameraChannel then
        match st.equipmentStatus.find? (fun r =>
            r.busId == current.busId
              && r.cameraChannel == current.cameraChannel) with
        | some existing =>
          st.equipmentStatus.map (fun r =>
            if r.id == existing.id then
              { r with status := "operational", updatedAt := now }
            else r)
        | none => st.equipmentStatus
      else st.equipmentStatus
    some (applyUpdate current resolveUpdate,
      { st with
        incidents := st.incidents.map (fun i =>
          if i.id == id then applyUpdate i resolveUpdate else i)
        equipmentStatus := es })

/-! ### The incident creation route (`POST /api/incidents`) -/

/-- The request body accepted by `POST /api/incidents`
(`incidentFormSchema` of `shared/schema.ts`): note that it carries no
`status` and no `resolvedAt` field. -/
structure IncidentForm where
  busId : String
  equipmentType : String
  incidentType : String
  cameraChannels : Option (List String) := none
  description : Option String := none
  reporter : Option String := none
deriving Repr

/-- The fan-out loop of `POST /api/incidents`: one `createIncident` call
per selected channel, status forced to "pending". -/
def createIncidentsLoop (form : IncidentForm) (chs : List String)
    (now : Int) (st : Store) : List Incident × Store :=
  match chs with
  | [] => ([], st)
  | ch :: rest =>
    let p := createIncident
      { busId := form.busId
        equipmentType := form.equipmentType
        incidentType := form.incidentType
        cameraChannel := some ch
        status := some "pending"
        description := form.description
        reporter := form.reporter } now st
    let q := createIncidentsLoop form rest now p.2
    (p.1 :: q.1, q.2)

/-- `POST /api/incidents` of `server/routes.ts`: a camera request with a
non-empty channel list fans out to one incident per channel; any other
request creates a single incident with no channel. -/
def postIncidents (form : IncidentForm) (now : Int) (st : Store) :
    List Incident × Store :=
  if form.equipmentType = "camera" ∧ (form.cameraChannels.getD []).length ≠ 0 then
    createIncidentsLoop form (form.cameraChannels.getD []) now st
  else
    let p := createIncident
      { busId := form.busId
        equipmentType := form.equipmentType
        incidentType := form.incidentType
        cameraChannel := none
        status := some "pending"
        description := form.description
        reporter := form.reporter } now st
    ([p.1], p.2)

/-! ### Bus deletion (`DatabaseStorage.deleteBus`) -/

/-- `DatabaseStorage.deleteBus` of `server/storage.ts`: child rows
(documents, equipment status, incidents) are deleted first; the returned
Boolean only reflects whether a bus row was then deleted. -/
def deleteBus (id : String) (st : Store) : Bool × Store :=
  let st1 : Store :=
    { st with
      busDocuments := st.busDocuments.filter (fun d => !(d.busId == id))
      equipmentStatus := st.equipmentStatus.filter (fun r => !(r.busId == id))
      incidents := st.incidents.filter (fun i => !(i.busId == id)) }
  (st.buses.any (fun b => b.id == id),
    { st1 with buses := st1.buses.filter (fun b => !(b.id == id)) })

/-! ### Expiry scanner (`DatabaseStorage.getExpiringDocuments`) -/

/-- Milliseconds per day. -/
def msPerDay : Int := 86400000

/-- JS `Math.ceil(a / b)` for an integer `a` and a positive integer `b`. -/
def ceilDiv (a b : Int) : Int := -((-a).fdiv b)

/-- The per-type alert threshold table of `getExpiringDocuments`; `none`
means the document type never generates an alert. -/
def alertDays (docType : String) : Option Int :=
  if docType = "revision_tecnica" then some 5
  else if docType = "licencia_conducir" || docType = "cedula_conductor" then some 30
  else none

/-- `busMap[id] || id`: the bus number of a bus id, falling back to the
id itself when the bus is unknown (or its number is the empty string). -/
def lookupBusNumber (buses : List Bus) (id : String) : String :=
  match buses.find? (fun b => b.id == id) with
  | some b => if b.busNumber = "" then id else b.busNumber
  | none => id

/-- `doc.driverId ? driverMap[doc.driverId] : undefined`. -/
def lookupDriverName (drivers : List Driver) : Option String → Option String
  | some did =>
    if did = "" then none else (drivers.find? (fun d => d.id == did)).map (·.name)
  | none => none

/-- One element of the `getExpiringDocuments` result. -/
structure ExpiringDoc where
  busNumber : String
  docType : String
  fileName : String
  expiresAt : Int
  daysLeft : Int
  driverName : Option String
deriving DecidableEq, Repr

/-- The entry `getExpiringDocuments` builds for an alerting document. -/
def mkExpiringDoc (st : Store) (now : Int) (doc : BusDocument) (exp : Int) :
    ExpiringDoc :=
  { busNumber := lookupBusNumber st.buses doc.busId
    docType := doc.docType
    fileName := doc.fileName
    expiresAt := exp
    daysLeft := ceilDiv (exp - now) msPerDay
    driverName := lookupDriverName st.drivers doc.driverId }

/-- `DatabaseStorage.getExpiringDocuments` of `server/storage.ts`. `now`
and `expiresAt` are in milliseconds. -/
def getExpiringDocuments (now : Int) (st : Store) : List ExpiringDoc :=
  let results := st.busDocuments.filterMap (fun doc =>
    match doc.expiresAt with
    | none => none
    | some exp =>
      match alertDays doc.docType with
      | none => none
      | some a =>
        if ceilDiv (exp - now) msPerDay ≤ a then some (mkExpiringDoc st now doc exp)
        else none)
  List.insertionSort (fun a b => a.daysLeft ≤ b.daysLeft) results

/-! ### Report aggregation -/

/-- Distinct elements of a list, in order of first appearance — the key
iteration order of a JS object built by repeated insertion. (Taking
`dedup`, which keeps last occurrences, on the reversed list and
reversing back keeps exactly the first occurrences in order.) -/
def keysInOrder {α : Type} [DecidableEq α] (l : List α) : List α :=
  l.reverse.dedup.reverse

/-- Count-by-key histogram in key insertion order, as built by the
`forEach` loops of the report functions. -/
def histogram (l : List String) : List (String × Nat) :=
  (keysInOrder l).map (fun k => (k, l.count k))

/-- Membership test of a day-granular timestamp in an inclusive window;
a null timestamp never matches (SQL comparison with NULL). -/
def inWindow (lo hi : Int) : Option Int → Bool
  | some t => decide (lo ≤ t) && decide (t ≤ hi)
  | none => false

/-- The per-bus `(busNumber, count)` entries of a report, in bus-id
insertion order (the order of `Object.entries(busCounts)`). -/
def busCountEntries (incs : List Incident) (buses : List Bus) :
    List (String × Nat) :=
  (keysInOrder (incs.map (·.busId))).map (fun b =>
    (lookupBusNumber buses b, incs.countP (fun i => i.busId == b)))

/-- `mostAffectedBuses`: per-bus counts, stably sorted descending by
count, truncated to the first `k` entries. -/
def mostAffected (incs : List Incident) (buses : List Bus) (k : Nat) :
    List (String × Nat) :=
  (List.insertionSort (fun a b => b.2 ≤ a.2) (busCountEntries incs buses)).take k

/-- `DashboardStats` of `shared/schema.ts` (the histogram is a list of
pairs rather than a JS record). -/
structure DashboardStats where
  totalBuses : Nat
  activeIncidents : Nat
  resolvedThisWeek : Nat
  pendingRepairs : Nat
  incidentsByType : List (String × Nat)
deriving Repr

/-- `DatabaseStorage.getDashboardStats` of `server/storage.ts`; `now` is
the current day number. -/
def getDashboardStats (now : Int) (st : Store) : DashboardStats :=
  let weekStart := startOfWeekDay 1 now
  let weekEnd := weekStart + 6
  { totalBuses := st.buses.length
    activeIncidents := st.incidents.countP (fun i => !(i.status == "resolved"))
    resolvedThisWeek := st.incidents.countP (fun i =>
      i.status == "resolved" && inWindow weekStart weekEnd i.resolvedAt)
    pendingRepairs := st.incidents.countP (fun i => i.status == "pending")
    incidentsByType := histogram
      ((st.incidents.filter (fun i => !(i.status == "resolved"))).map (·.equipmentType)) }

/-- `WeeklyReport` of `shared/schema.ts`; week bounds are day numbers. -/
structure WeeklyReport where
  weekStart : Int
  weekEnd : Int
  totalIncidents : Nat
  resolvedIncidents : Nat
  incidentsByType : List (String × Nat)
  incidentsByEquipment : List (String × Nat)
  mostAffectedBuses : List (String × Nat)
deriving Repr

/-- The incidents selected by the weekly report: `reportedAt` within the
Monday-starting week containing the input day, both bounds inclusive. -/
def weekIncidents (d : Int) (st : Store) : List Incident :=
  st.incidents.filter (fun i =>
    inWindow (startOfWeekDay 1 d) (startOfWeekDay 1 d + 6) i.reportedAt)

/-- `DatabaseStorage.getWeeklyReport` of `server/storage.ts`; the input
is any day of the target week. -/
def getWeeklyReport (d : Int) (st : Store) : WeeklyReport :=
  let sel := weekIncidents d st
  { weekStart := startOfWeekDay 1 d
    weekEnd := startOfWeekDay 1 d + 6
    totalIncidents := sel.length
    resolvedIncidents := (sel.filter (fun i => i.status == "resolved")).length
    incidentsByType := histogram (sel.map (·.incidentType))
    incidentsByEquipment := histogram (sel.map (·.equipmentType))
    mostAffectedBuses := mostAffected sel st.buses 5 }

/-- `MonthlyReport` of `shared/schema.ts`. The month is kept as its
number (the source formats the locale month name). -/
structure MonthlyReport where
  month : Int
  year : Int
  totalIncidents : Nat
  resolvedIncidents : Nat
  incidentsByType : List (String × Nat)
  incidentsByEquipment : List (String × Nat)
  weeklyTrend : List (Int × Nat)
  mostAffectedBuses : List (String × Nat)
deriving Repr

/-- The incidents selected by the monthly report: `reportedAt` within
the calendar month of the input date, both bounds inclusive. -/
def monthIncidents (d : CivilDate) (st : Store) : List Incident :=
  st.incidents.filter (fun i =>
    inWindow (daysFromCivil ⟨d.year, d.month, 1⟩)
      (daysFromCivil ⟨d.year, d.month, daysInMonth d.year d.month⟩) i.reportedAt)

/-- The week numbers `getMonthlyReport` accumulates into
`weeklyTrendMap`: date-fns `getWeek` (default options) of each selected
dated incident. -/
def monthWeeks (d : CivilDate) (st : Store) : List Int :=
  (monthIncidents d st).filterMap (fun i => i.reportedAt.map getWeekFns)

/-- Turn the multiset of week numbers into the `weeklyTrend` list: one
`(week, count)` entry per occupied week number, sorted ascending by
week. (The JS code accumulates a record keyed by week number and then
sorts its entries ascending, so only the set of keys and their counts
matter.) -/
def weeklyTrendOf (weeks : List Int) : List (Int × Nat) :=
  (List.insertionSort (fun a b => a ≤ b) weeks.dedup).map (fun w => (w, weeks.count w))

/-- `DatabaseStorage.getMonthlyReport` of `server/storage.ts`; the input
is any date of the target month. -/
def getMonthlyReport (d : CivilDate) (st : Store) : MonthlyReport :=
  let sel := monthIncidents d st
  { month := d.month
    year := d.year
    totalIncidents := sel.length
    resolvedIncidents := (sel.filter (fun i => i.status == "resolved")).length
    incidentsByType := histogram (sel.map (·.incidentType))
    incidentsByEquipment := histogram (sel.map (·.equipmentType))
    weeklyTrend := weeklyTrendOf (monthWeeks d st)
    mostAffectedBuses := mostAffected sel st.buses 6 }

/-- The weekly trend the specification describes: the same selection and
bucketing, but grouped by the ISO week number of the year. Stated from
the words of the specification, for comparison with `getMonthlyReport`. -/
def specIsoWeeklyTrend (d : CivilDate) (st : Store) : List (Int × Nat) :=
  weeklyTrendOf ((monthIncidents d st).filterMap (fun i => i.reportedAt.map specIsoWeek))

/-! ### Concrete stores used to instantiate the theorems -/

/-- An open camera incident on channel ch1 of bus b1. -/
def exIncident : Incident :=
  { id := 0, busId := "b1", equipmentType := "camera", incidentType := "faulty"
    cameraChannel := some "ch1", status := "pending", description := none
    resolutionNotes := none, reportedAt := some 19540, resolvedAt := none
    reporter := none }

/-- The equipment-status row for channel ch1 of bus b1, currently faulty. -/
def exRow : EquipmentStatusRow :=
  { id := 10, busId := "b1", equipmentType := "camera", cameraChannel := some "ch1"
    status := "faulty", lastIncidentId := some 0, updatedAt := 0 }

/-- A store with one open camera incident and its projection row. -/
def exStoreResolve : Store :=
  { buses := [⟨"b1", "101", none⟩], busDocuments := [], drivers := []
    incidents := [exIncident], equipmentStatus := [exRow], nextId := 1 }

/-- A camera insert request for channel ch1 of bus b1. -/
def exInsert : InsertIncident :=
  { busId := "b1", equipmentType := "camera", incidentType := "faulty"
    cameraChannel := some "ch1", status := some "pending" }

/-- An empty store. -/
def exStoreEmpty : Store :=
  { buses := [], busDocuments := [], drivers := [], incidents := []
    equipmentStatus := [], nextId := 0 }

/-- A store whose two incidents fall on Sunday 2023-07-02 (day 19540)
and Monday 2023-07-03 (day 19541): the same Sunday-starting week for
date-fns `getWeek` (week 27), but different ISO weeks (26 and 27). -/
def exStoreJuly : Store :=
  { buses := [⟨"b1", "101", none⟩], busDocuments := [], drivers := []
    incidents := [
      { id := 0, busId := "b1", equipmentType := "camera", incidentType := "faulty"
        cameraChannel := some "ch1", status := "pending", description := none
        resolutionNotes := none, reportedAt := some 19540, resolvedAt := none
        reporter := none },
      { id := 1, busId := "b1", equipmentType := "dvr", incidentType := "misaligned"
        cameraChannel := none, status := "pending", description := none
        resolutionNotes := none, reportedAt := some 19541, resolvedAt := none
        reporter := none } ]
    equipmentStatus := [], nextId := 2 }

/-- A technical-revision document that expires in four days. -/
def exDoc : BusDocument :=
  { id := 0, busId := "b1", docType := "revision_tecnica", fileName := "rt.pdf"
    expiresAt := some 345600000, driverId := none }

/-- A store holding `exDoc`. -/
def exStoreDocs : Store :=
  { buses := [⟨"b1", "101", none⟩], busDocuments := [exDoc], drivers := []
    incidents := [], equipmentStatus := [], nextId := 1 }

/-- An orphaned bus-document row whose bus does not exist. -/
def exOrphanDoc : BusDocument :=
  { id := 7, busId := "ghost", docType := "chasis", fileName := "x.pdf"
    expiresAt := none, driverId := none }

/-- A store with no bus rows but child rows referencing bus id "ghost". -/
def exStoreOrphan : Store :=
  { buses := [], busDocuments := [exOrphanDoc], drivers := []
    incidents := [
      { id := 0, busId := "ghost", equipmentType := "gps", incidentType := "faulty"
        cameraChannel := none, status := "pending", description := none
        resolutionNotes := none, reportedAt := some 3, resolvedAt := none
        reporter := none } ]
    equipmentStatus := [
      { id := 1, busId := "ghost", equipmentType := "camera"
        cameraChannel := some "ch2", status := "operational"
        lastIncidentId := none, updatedAt := 0 } ]
    nextId := 1 }

/-! ### Helper lemmas -/

/-- Updating, by key, every row whose key is `k` commutes with looking
the key up: the found row is the updated image of the originally found
row. -/
theorem find?_map_update {α : Type} (key : α → Nat) (g : α → α)
    (hg : ∀ x, key (g x) = key x) (k : Nat) :
    ∀ l : List α,
      (l.map (fun r => if key r == k then g r else r)).find? (fun r => key r == k)
        = (l.find? (fun r => key r == k)).map g := by
  intro l
  induction l with
  | nil => rfl
  | cons a t ih =>
    simp only [List.map_cons, List.find?_cons]
    by_cases h : key a = k
    · have h2 : (key a == k) = true := by simpa using h
      have h1 : (key (g a) == k) = true := by simpa [hg] using h
      simp [h2, h1]
    · have h2 : (key a == k) = false := by simpa using h
      have h1 : (key (g a) == k) = false := by simpa [hg] using h
      simpa [h2, h1] using ih

/-- In a list with pairwise-distinct keys, looking a member up by its
own key finds exactly that member. -/
theorem find?_key_of_nodup {α : Type} (key : α → Nat) :
    ∀ l : List α, (l.map key).Nodup → ∀ x ∈ l,
      l.find? (fun r => key r == key x) = some x := by
  intro l
  induction l with
  | nil => simp
  | cons a t ih =>
    intro hnd x hx
    have hnd' : (∀ y ∈ t, ¬key y = key a) ∧ (t.map key).Nodup := by simpa using hnd
    rcases List.mem_cons.mp hx with rfl | hxt
    · simp [List.find?_cons]
    · have hne : key a ≠ key x := fun he => hnd'.1 x hxt he.symm
      simp [List.find?_cons, hne, ih hnd'.2 x hxt]

/-- The incident row `createIncident` returns, written out. -/
theorem createIncident_fst (ins : InsertIncident) (now : Int) (st : Store) :
    (createIncident ins now st).1 =
      { id := st.nextId, busId := ins.busId, equipmentType := ins.equipmentType
        incidentType := ins.incidentType, cameraChannel := jsOrNull ins.cameraChannel
        status := ins.status.getD "pending", description := jsOrNull ins.description
        resolutionNotes := jsOrNull ins.resolutionNotes, reportedAt := some now
        resolvedAt := none, reporter := jsOrNull ins.reporter } := by
  unfold createIncident
  dsimp only
  split
  · split <;> rfl
  · rfl

/-- Field-wise description of the incidents produced by the fan-out
loop of `POST /api/incidents`. -/
theorem createIncidentsLoop_spec (form : IncidentForm) (now : Int) :
    ∀ (chs : List String) (st : Store),
      ((createIncidentsLoop form chs now st).1.map (·.cameraChannel)
          = chs.map (fun ch => jsOrNull (some ch)))
      ∧ ∀ inc ∈ (createIncidentsLoop form chs now st).1,
          inc.busId = form.busId ∧ inc.equipmentType = form.equipmentType
            ∧ inc.incidentType = form.incidentType
            ∧ inc.description = jsOrNull form.description
            ∧ inc.reporter = jsOrNull form.reporter
            ∧ inc.status = "pending" ∧ inc.resolvedAt = none := by
  intro chs
  induction chs with
  | nil => intro st; exact ⟨rfl, by simp [createIncidentsLoop]⟩
  | cons ch rest ih =>
    intro st
    refine ⟨?_, ?_⟩
    · simp only [createIncidentsLoop, List.map_cons]
      rw [createIncident_fst, (ih _).1]
    · intro inc hinc
      simp only [createIncidentsLoop] at hinc
      rcases List.mem_cons.mp hinc with rfl | h2
      · simp [createIncident_fst]
      · exact (ih _).2 inc h2

/-! ### Claim theorems -/

/-- C10: `deleteBus` deletes documents, equipment-status rows and
incidents referencing the bus id before checking that the bus exists;
called with an id no bus has, it returns false, yet the orphaned child
rows carrying that id are gone (and the children of other buses are
kept), so a not-found result does not mean the store is unchanged. -/
theorem deleteBus_deletes_orphans_on_notFound (id : String) (st : Store)
    (h : ∀ b ∈ st.buses, b.id ≠ id) :
    (deleteBus id st).1 = false
    ∧ (∀ d ∈ (deleteBus id st).2.busDocuments, d.busId ≠ id)
    ∧ (∀ r ∈ (deleteBus id st).2.equipmentStatus, r.busId ≠ id)
    ∧ (∀ i ∈ (deleteBus id st).2.incidents, i.busId ≠ id)
    ∧ (∀ d ∈ st.busDocuments, d.busId ≠ id → d ∈ (deleteBus id st).2.busDocuments)
    ∧ (∀ r ∈ st.equipmentStatus, r.busId ≠ id → r ∈ (deleteBus id st).2.equipmentStatus)
    ∧ (∀ i ∈ st.incidents, i.busId ≠ id → i ∈ (deleteBus id st).2.incidents) := by
  refine ⟨?_, ?_, ?_, ?_, ?_, ?_, ?_⟩
  · simp only [deleteBus, List.any_eq_false]
    intro b hb
    simpa using h b hb
  all_goals
    simp only [deleteBus]
    intro x hx
  · exact (by simpa using (List.mem_filter.mp hx).2 : ¬x.busId = id)
  · exact (by simpa using (List.mem_filter.mp hx).2 : ¬x.busId = id)
  · exact (by simpa using (List.mem_filter.mp hx).2 : ¬x.busId = id)
  · intro hne; exact List.mem_filter.mpr ⟨hx, by simpa using hne⟩
  · intro hne; exact List.mem_filter.mpr ⟨hx, by simpa using hne⟩
  · intro hne; exact List.mem_filter.mpr ⟨hx, by simpa using hne⟩

/-- Witness for C10 at a concrete store with orphaned children. -/
theorem deleteBus_deletes_orphans_on_notFound_witness :
    (deleteBus "ghost" exStoreOrphan).1 = false
    ∧ (∀ d ∈ (deleteBus "ghost" exStoreOrphan).2.busDocuments, d.busId ≠ "ghost")
    ∧ (∀ r ∈ (deleteBus "ghost" exStoreOrphan).2.equipmentStatus, r.busId ≠ "ghost")
    ∧ (∀ i ∈ (deleteBus "ghost" exStoreOrphan).2.incidents, i.busId ≠ "ghost")
    ∧ (∀ d ∈ exStoreOrphan.busDocuments, d.busId ≠ "ghost" →
        d ∈ (deleteBus "ghost" exStoreOrphan).2.busDocuments)
    ∧ (∀ r ∈ exStoreOrphan.equipmentStatus, r.busId ≠ "ghost" →
        r ∈ (deleteBus "ghost" exStoreOrphan).2.equipmentStatus)
    ∧ (∀ i ∈ exStoreOrphan.incidents, i.busId ≠ "ghost" →
        i ∈ (deleteBus "ghost" exStoreOrphan).2.incidents) :=
  deleteBus_deletes_orphans_on_notFound "ghost" exStoreOrphan (by decide)

/-- C9: every incident created through `POST /api/incidents` starts with
status "pending" and a null `resolvedAt`, whatever the request carried
(the accepted form has no status or resolvedAt field, and the route
forces status to "pending"). -/
theorem postIncidents_starts_pending (form : IncidentForm) (now : Int) (st : Store) :
    ∀ inc ∈ (postIncidents form now st).1,
      inc.status = "pending" ∧ inc.resolvedAt = none := by
  intro inc hinc
  by_cases hc : form.equipmentType = "camera" ∧ (form.cameraChannels.getD []).length ≠ 0
  · rw [postIncidents, if_pos hc] at hinc
    have := (createIncidentsLoop_spec form now (form.cameraChannels.getD []) st).2 inc hinc
    exact ⟨this.2.2.2.2.2.1, this.2.2.2.2.2.2⟩
  · rw [postIncidents, if_neg hc] at hinc
    rcases List.mem_cons.mp hinc with rfl | hfalse
    · rw [createIncident_fst]
      exact ⟨rfl, rfl⟩
    · simp at hfalse

/-- Witness for C9: a concrete non-camera request yields the concrete
pending incident below. -/
theorem postIncidents_starts_pending_witness :
    ({ id := 0, busId := "b1", equipmentType := "dvr", incidentType := "faulty"
       cameraChannel := none, status := "pending", description := none
       resolutionNotes := none, reportedAt := some 3, resolvedAt := none
       reporter := none } : Incident)
        ∈ (postIncidents
            { busId := "b1", equipmentType := "dvr", incidentType := "faulty" }
            3 exStoreEmpty).1
    ∧ ({ id := 0, busId := "b1", equipmentType := "dvr", incidentType := "faulty"
         cameraChannel := none, status := "pending", description := none
         resolutionNotes := none, reportedAt := some 3, resolvedAt := none
         reporter := none } : Incident).status = "pending"
    ∧ ({ id := 0, busId := "b1", equipmentType := "dvr", incidentType := "faulty"
         cameraChannel := none, status := "pending", description := none
         resolutionNotes := none, reportedAt := some 3, resolvedAt := none
         reporter := none } : Incident).resolvedAt = none := by
  refine ⟨by decide, ?_, ?_⟩
  · exact (postIncidents_starts_pending
      { busId := "b1", equipmentType := "dvr", incidentType := "faulty" }
      3 exStoreEmpty _ (by decide)).1
  · exact (postIncidents_starts_pending
      { busId := "b1", equipmentType := "dvr", incidentType := "faulty" }
      3 exStoreEmpty _ (by decide)).2

/-- C3: a camera request with a non-empty list of distinct selected
channels fans out to exactly one incident per listed channel, all
sharing busId, description, reporter, equipment and incident types,
with pairwise-distinct channels; and any request that is not a camera
request with channels creates exactly one incident with a null
channel. -/
theorem postIncidents_fanout (form : IncidentForm) (now : Int) (st : Store)
    (chs : List String)
    (hch : form.cameraChannels = some chs) (hcam : form.equipmentType = "camera")
    (hne : chs ≠ []) (hnd : chs.Nodup) (hblank : "" ∉ chs) :
    ((postIncidents form now st).1.length = chs.length
      ∧ (postIncidents form now st).1.map (·.cameraChannel) = chs.map some
      ∧ ((postIncidents form now st).1.map (·.cameraChannel)).Nodup
      ∧ ∀ inc ∈ (postIncidents form now st).1,
          inc.busId = form.busId ∧ inc.equipmentType = "camera"
            ∧ inc.incidentType = form.incidentType
            ∧ inc.description = jsOrNull form.description
            ∧ inc.reporter = jsOrNull form.reporter)
    ∧ ∀ form2 : IncidentForm,
        ¬(form2.equipmentType = "camera" ∧ (form2.cameraChannels.getD []).length ≠ 0) →
        ∃ inc, (postIncidents form2 now st).1 = [inc] ∧ inc.cameraChannel = none := by
  have hc : form.equipmentType = "camera" ∧ (form.cameraChannels.getD []).length ≠ 0 := by
    refine ⟨hcam, ?_⟩
    rw [hch, Option.getD_some]
    simp only [ne_eq, List.length_eq_zero]
    exact hne
  have hunf : (postIncidents form now st).1
      = (createIncidentsLoop form (form.cameraChannels.getD []) now st).1 := by
    rw [postIncidents, if_pos hc]
  have hloop := createIncidentsLoop_spec form now (form.cameraChannels.getD []) st
  have hgd : form.cameraChannels.getD [] = chs := by rw [hch, Option.getD_some]
  have hmap : (postIncidents form now st).1.map (·.cameraChannel) = chs.map some := by
    rw [hunf, hloop.1, hgd]
    refine List.map_congr_left (fun ch hm => ?_)
    have hcne : ¬ch = "" := fun hb => hblank (hb ▸ hm)
    simp [jsOrNull, hcne]
  refine ⟨⟨?_, hmap, ?_, ?_⟩, ?_⟩
  · have := congrArg List.length hmap
    simpa using this
  · rw [hmap]
    exact hnd.map (Option.some_injective String)
  · intro inc hinc
    rw [hunf] at hinc
    have := hloop.2 inc hinc
    exact ⟨this.1, hcam ▸ this.2.1, this.2.2.1, this.2.2.2.1, this.2.2.2.2.1⟩
  · intro form2 hnc
    refine ⟨(createIncident
        { busId := form2.busId, equipmentType := form2.equipmentType
          incidentType := form2.incidentType, cameraChannel := none
          status := some "pending", description := form2.description
          reporter := form2.reporter } now st).1, ?_, ?_⟩
    · rw [postIncidents, if_neg hnc]
    · rw [createIncident_fst]
      rfl

/-- Witness for C3 at a concrete camera request with two channels and a
concrete dvr request. -/
theorem postIncidents_fanout_witness :
    ((postIncidents
        { busId := "b1", equipmentType := "camera", incidentType := "faulty"
          cameraChannels := some ["ch1", "ch3"] } 19542 exStoreResolve).1.length = 2
      ∧ (postIncidents
          { busId := "b1", equipmentType := "camera", incidentType := "faulty"
            cameraChannels := some ["ch1", "ch3"] } 19542 exStoreResolve).1.map
            (·.cameraChannel) = [some "ch1", some "ch3"]) := by
  have h := postIncidents_fanout
    { busId := "b1", equipmentType := "camera", incidentType := "faulty"
      cameraChannels := some ["ch1", "ch3"] } 19542 exStoreResolve
    ["ch1", "ch3"] rfl rfl (by decide) (by decide) (by decide)
  exact ⟨h.1.1, h.1.2.1⟩

/-- C6: in every dashboard snapshot, `activeIncidents` counts the
incidents whose status is not "resolved" and `pendingRepairs` counts
those whose status is exactly "pending"; the active counter decomposes
into the pending ones plus the remaining unresolved ones (such as
"in_progress"), so `pendingRepairs ≤ activeIncidents`. -/
theorem dashboard_active_vs_pending (now : Int) (st : Store) :
    (getDashboardStats now st).activeIncidents
        = (st.incidents.filter (fun i => !(i.status == "resolved"))).length
    ∧ (getDashboardStats now st).pendingRepairs
        = (st.incidents.filter (fun i => i.status == "pending")).length
    ∧ (getDashboardStats now st).activeIncidents
        = (getDashboardStats now st).pendingRepairs
          + (st.incidents.filter (fun i =>
              !(i.status == "resolved") && !(i.status == "pending"))).length
    ∧ (getDashboardStats now st).pendingRepairs
        ≤ (getDashboardStats now st).activeIncidents := by
  have key : ∀ l : List Incident,
      l.countP (fun i => !(i.status == "resolved"))
        = l.countP (fun i => i.status == "pending")
          + (l.filter (fun i =>
              !(i.status == "resolved") && !(i.status == "pending"))).length := by
    intro l
    induction l with
    | nil => rfl
    | cons a t ih =>
      simp only [List.countP_cons, List.filter_cons]
      by_cases h1 : a.status = "resolved" <;> by_cases h2 : a.status = "pending"
      · exact absurd (h1.symm.trans h2) (by decide)
      · have b1 : (a.status == "resolved") = true := by simpa using h1
        have b2 : (a.status == "pending") = false := by simpa using h2
        simpa [b1, b2] using ih
      · have b1 : (a.status == "resolved") = false := by simpa using h1
        have b2 : (a.status == "pending") = true := by simpa using h2
        simp [b1, b2]
        omega
      · have b1 : (a.status == "resolved") = false := by simpa using h1
        have b2 : (a.status == "pending") = false := by simpa using h2
        simp [b1, b2]
        omega
  refine ⟨List.countP_eq_length_filter _ _, List.countP_eq_length_filter _ _, ?_, ?_⟩
  · exact key st.incidents
  · have := key st.incidents
    show st.incidents.countP (fun i => i.status == "pending")
        ≤ st.incidents.countP (fun i => !(i.status == "resolved"))
    omega

/-- Unfolding of `updateIncident` on a first resolution of a camera
incident whose channel has a matching projection row. -/
theorem updateIncident_resolve_eq (st : Store) (id : Nat) (now : Int)
    (u : IncidentUpdate) (cur : Incident) (row : EquipmentStatusRow) (ch : String)
    (hcur : st.incidents.find? (fun i => i.id == id) = some cur)
    (hstat : u.status = some "resolved")
    (heq : cur.equipmentType = "camera") (hch : cur.cameraChannel = some ch)
    (hch0 : ch ≠ "") (hres : cur.resolvedAt = none)
    (hrow : st.equipmentStatus.find? (fun r =>
        r.busId == cur.busId && r.cameraChannel == cur.cameraChannel) = some row) :
    updateIncident id u now st
      = some (applyUpdate cur { u with resolvedAt := some now },
        { st with
          incidents := st.incidents.map (fun i =>
            if i.id == id then applyUpdate i { u with resolvedAt := some now } else i)
          equipmentStatus := st.equipmentStatus.map (fun r =>
            if r.id == row.id then { r with status := "operational", updatedAt := now }
            else r) }) := by
  have hb1 : (u.status == some "resolved" && cur.resolvedAt == none) = true := by
    simp [hstat, hres]
  have hb2 : (cur.equipmentType == "camera") = true := by simp [heq]
  have hb3 : jsTruthyStr cur.cameraChannel = true := by simp [jsTruthyStr, hch, hch0]
  simp only [updateIncident, hcur, hb1, hb2, hb3, Bool.true_and, Bool.and_self,
    if_true, hrow]

/-- Unfolding of `updateIncident` on an incident whose `resolvedAt` is
already set: no stamp and no projection update. -/
theorem updateIncident_already_resolved_eq (st : Store) (id : Nat) (now : Int)
    (u : IncidentUpdate) (cur : Incident) (t : Int)
    (hcur : st.incidents.find? (fun i => i.id == id) = some cur)
    (hres : cur.resolvedAt = some t) :
    updateIncident id u now st
      = some (applyUpdate cur u,
        { st with incidents := st.incidents.map (fun i =>
            if i.id == id then applyUpdate i u else i) }) := by
  have hb : (u.status == some "resolved" && cur.resolvedAt == none) = false := by
    simp [hres]
  simp only [updateIncident, hcur, hb, Bool.false_and, Bool.false_eq_true, if_false]

/-- C1: resolving an unresolved camera incident stamps `resolvedAt`
(exactly once) and resets the matching `(busId, cameraChannel)`
equipment-status row to "operational" whatever its previous status; a
second "resolved" update of the now-resolved incident leaves
`resolvedAt` unchanged and performs no projection update. -/
theorem updateIncident_resolution_idempotent (st : Store) (id : Nat)
    (now now2 : Int) (u u2 : IncidentUpdate) (cur : Incident)
    (row : EquipmentStatusRow) (ch : String)
    (hids : (st.equipmentStatus.map (·.id)).Nodup)
    (hcur : st.incidents.find? (fun i => i.id == id) = some cur)
    (hstat : u.status = some "resolved") (hra : u.resolvedAt = none)
    (heq : cur.equipmentType = "camera") (hch : cur.cameraChannel = some ch)
    (hch0 : ch ≠ "") (hres : cur.resolvedAt = none)
    (hrow : st.equipmentStatus.find? (fun r =>
        r.busId == cur.busId && r.cameraChannel == cur.cameraChannel) = some row)
    (hstat2 : u2.status = some "resolved") (hra2 : u2.resolvedAt = none) :
    ∃ inc1 st1, updateIncident id u now st = some (inc1, st1)
      ∧ inc1.resolvedAt = some now
      ∧ st1.equipmentStatus.find? (fun r => r.id == row.id)
          = some { row with status := "operational", updatedAt := now }
      ∧ ∃ inc2 st2, updateIncident id u2 now2 st1 = some (inc2, st2)
        ∧ inc2.resolvedAt = some now
        ∧ st2.equipmentStatus = st1.equipmentStatus := by
  have h1 := updateIncident_resolve_eq st id now u cur row ch
    hcur hstat heq hch hch0 hres hrow
  refine ⟨_, _, h1, by simp [applyUpdate], ?_, ?_⟩
  · have hmem : row ∈ st.equipmentStatus := List.mem_of_find?_eq_some hrow
    have hfu := find?_map_update (fun r : EquipmentStatusRow => r.id)
      (fun r => { r with status := "operational", updatedAt := now })
      (fun _ => rfl) row.id st.equipmentStatus
    have hfk : st.equipmentStatus.find? (fun r => r.id == row.id) = some row := by
      simpa using find?_key_of_nodup (fun r : EquipmentStatusRow => r.id)
        st.equipmentStatus hids row hmem
    show (st.equipmentStatus.map (fun r =>
        if r.id == row.id then { r with status := "operational", updatedAt := now }
        else r)).find? (fun r => r.id == row.id)
      = some { row with status := "operational", updatedAt := now }
    rw [hfu, hfk]
    rfl
  · have hfind2 : (st.incidents.map (fun i =>
        if i.id == id then applyUpdate i { u with resolvedAt := some now } else i)).find?
          (fun i => i.id == id)
        = some (applyUpdate cur { u with resolvedAt := some now }) := by
      have hfu := find?_map_update (fun i : Incident => i.id)
        (fun i => applyUpdate i { u with resolvedAt := some now })
        (fun _ => rfl) id st.incidents
      simp only at hfu
      rw [hfu, hcur]
      rfl
    have h2 := updateIncident_already_resolved_eq
      { st with
        incidents := st.incidents.map (fun i =>
          if i.id == id then applyUpdate i { u with resolvedAt := some now } else i)
        equipmentStatus := st.equipmentStatus.map (fun r =>
          if r.id == row.id then { r with status := "operational", updatedAt := now }
          else r) } id now2 u2
      (applyUpdate cur { u with resolvedAt := some now }) now hfind2 (by simp [applyUpdate])
    exact ⟨_, _, h2, by simp [applyUpdate, hra2], rfl⟩

/-- Witness for C1 at the concrete store `exStoreResolve`. -/
theorem updateIncident_resolution_idempotent_witness :
    ∃ inc1 st1, updateIncident 0 { status := some "resolved" } 20 exStoreResolve
        = some (inc1, st1)
      ∧ inc1.resolvedAt = some 20
      ∧ st1.equipmentStatus.find? (fun r => r.id == exRow.id)
          = some { exRow with status := "operational", updatedAt := 20 }
      ∧ ∃ inc2 st2, updateIncident 0 { status := some "resolved" } 30 st1
            = some (inc2, st2)
        ∧ inc2.resolvedAt = some 20
        ∧ st2.equipmentStatus = st1.equipmentStatus :=
  updateIncident_resolution_idempotent exStoreResolve 0 20 30
    { status := some "resolved" } { status := some "resolved" } exIncident exRow "ch1"
    (by decide) (by decide) rfl rfl (by decide) (by decide) (by decide) (by decide)
    (by decide) rfl rfl

/-- C7: when resolving a camera incident updates the matching
equipment-status row, only that row changes, and only its `status` and
`updatedAt` fields: `lastIncidentId` keeps its previous value and every
other row is untouched. -/
theorem updateIncident_resolution_frame (st : Store) (id : Nat) (now : Int)
    (u : IncidentUpdate) (cur : Incident) (row : EquipmentStatusRow) (ch : String)
    (hcur : st.incidents.find? (fun i => i.id == id) = some cur)
    (hstat : u.status = some "resolved")
    (heq : cur.equipmentType = "camera") (hch : cur.cameraChannel = some ch)
    (hch0 : ch ≠ "") (hres : cur.resolvedAt = none)
    (hrow : st.equipmentStatus.find? (fun r =>
        r.busId == cur.busId && r.cameraChannel == cur.cameraChannel) = some row) :
    ∃ inc1 st1, updateIncident id u now st = some (inc1, st1)
      ∧ List.Forall₂ (fun old new : EquipmentStatusRow =>
          (old.id = row.id →
            new = { old with status := "operational", updatedAt := now })
          ∧ (old.id ≠ row.id → new = old))
        st.equipmentStatus st1.equipmentStatus := by
  refine ⟨_, _, updateIncident_resolve_eq st id now u cur row ch
    hcur hstat heq hch hch0 hres hrow, ?_⟩
  show List.Forall₂ _ st.equipmentStatus (st.equipmentStatus.map _)
  rw [List.forall₂_map_right_iff, List.forall₂_same]
  intro x _
  constructor
  · intro hxid
    simp [hxid]
  · intro hxid
    simp [hxid]

/-- Witness for C7 at the concrete store `exStoreResolve`. -/
theorem updateIncident_resolution_frame_witness :
    ∃ inc1 st1, updateIncident 0 { status := some "resolved" } 20 exStoreResolve
        = some (inc1, st1)
      ∧ List.Forall₂ (fun old new : EquipmentStatusRow =>
          (old.id = exRow.id →
            new = { old with status := "operational", updatedAt := 20 })
          ∧ (old.id ≠ exRow.id → new = old))
        exStoreResolve.equipmentStatus st1.equipmentStatus :=
  updateIncident_resolution_frame exStoreResolve 0 20
    { status := some "resolved" } exIncident exRow "ch1"
    (by decide) rfl (by decide) (by decide) (by decide) (by decide) (by decide)

/-- C2: creating a camera incident with a channel whose matching
`(busId, cameraChannel)` equipment-status row exists sets that row to
"faulty" exactly when the incident type is "faulty" and to "misaligned"
for every other incident type, and points its `lastIncidentId` at the
id of the freshly created incident. -/
theorem createIncident_projection (st : Store) (ins : InsertIncident) (now : Int)
    (row : EquipmentStatusRow) (ch : String)
    (hids : (st.equipmentStatus.map (·.id)).Nodup)
    (heq : ins.equipmentType = "camera") (hch : ins.cameraChannel = some ch)
    (hch0 : ch ≠ "")
    (hrow : st.equipmentStatus.find? (fun r =>
        r.busId == ins.busId && r.cameraChannel == ins.cameraChannel) = some row) :
    (createIncident ins now st).2.equipmentStatus.find? (fun r => r.id == row.id)
      = some { row with
          status := if ins.incidentType = "faulty" then "faulty" else "misaligned"
          lastIncidentId := some (createIncident ins now st).1.id
          updatedAt := now }
    ∧ (createIncident ins now st).1.id = st.nextId := by
  have hfst : (createIncident ins now st).1.id = st.nextId := by
    rw [createIncident_fst]
  have hc : ins.equipmentType = "camera" ∧ jsTruthyStr ins.cameraChannel := by
    refine ⟨heq, ?_⟩
    simp [jsTruthyStr, hch, hch0]
  have hunf : (createIncident ins now st).2.equipmentStatus
      = st.equipmentStatus.map (fun r =>
          if r.id == row.id then
            { r with
              status := if ins.incidentType = "faulty" then "faulty" else "misaligned"
              lastIncidentId := some st.nextId
              updatedAt := now }
          else r) := by
    simp only [createIncident, if_pos hc, hrow]
  have hmem : row ∈ st.equipmentStatus := List.mem_of_find?_eq_some hrow
  have hfu := find?_map_update (fun r : EquipmentStatusRow => r.id)
    (fun r => { r with
        status := if ins.incidentType = "faulty" then "faulty" else "misaligned"
        lastIncidentId := some st.nextId, updatedAt := now })
    (fun _ => rfl) row.id st.equipmentStatus
  have hfk : st.equipmentStatus.find? (fun r => r.id == row.id) = some row := by
    simpa using find?_key_of_nodup (fun r : EquipmentStatusRow => r.id)
      st.equipmentStatus hids row hmem
  refine ⟨?_, hfst⟩
  rw [hfst, hunf, hfu, hfk]
  rfl

/-- Witness for C2 at the concrete store `exStoreResolve`. -/
theorem createIncident_projection_witness :
    (createIncident exInsert 40 exStoreResolve).2.equipmentStatus.find?
        (fun r => r.id == exRow.id)
      = some { exRow with
          status := if exInsert.incidentType = "faulty" then "faulty" else "misaligned"
          lastIncidentId := some (createIncident exInsert 40 exStoreResolve).1.id
          updatedAt := 40 }
    ∧ (createIncident exInsert 40 exStoreResolve).1.id = exStoreResolve.nextId :=
  createIncident_projection exStoreResolve exInsert 40 exRow "ch1"
    (by decide) rfl rfl (by decide) (by decide)

/-- The alert-threshold table, solved for its defined entries. -/
theorem alertDays_eq_some (dt : String) (a : Int) :
    alertDays dt = some a ↔
      ((dt = "revision_tecnica" ∨ dt = "licencia_conducir" ∨ dt = "cedula_conductor")
        ∧ a = (if dt = "revision_tecnica" then 5 else 30)) := by
  by_cases h1 : dt = "revision_tecnica"
  · simp [alertDays, h1, eq_comm]
  · by_cases h2 : dt = "licencia_conducir"
    · simp [alertDays, h1, h2, eq_comm]
    · by_cases h3 : dt = "cedula_conductor"
      · simp [alertDays, h1, h2, h3, eq_comm]
      · simp [alertDays, h1, h2, h3]

/-- C5: an entry appears in `getExpiringDocuments` exactly when it is
built from a stored document with a non-null expiry, a docType among
revision_tecnica, licencia_conducir and cedula_conductor, and a
ceiling-of-days distance to now of at most the per-type threshold
(5 for revision_tecnica, 30 for the other two) — already-expired
documents included; in particular no permiso_circulacion document ever
contributes an entry. -/
theorem getExpiringDocuments_membership (now : Int) (st : Store) (e : ExpiringDoc) :
    (e ∈ getExpiringDocuments now st ↔
      ∃ doc ∈ st.busDocuments, ∃ exp, doc.expiresAt = some exp
        ∧ (doc.docType = "revision_tecnica" ∨ doc.docType = "licencia_conducir"
            ∨ doc.docType = "cedula_conductor")
        ∧ ceilDiv (exp - now) msPerDay
            ≤ (if doc.docType = "revision_tecnica" then 5 else 30)
        ∧ e = mkExpiringDoc st now doc exp)
    ∧ ∀ e2 ∈ getExpiringDocuments now st, e2.docType ≠ "permiso_circulacion" := by
  have main : ∀ e1 : ExpiringDoc, e1 ∈ getExpiringDocuments now st ↔
      ∃ doc ∈ st.busDocuments, ∃ exp, doc.expiresAt = some exp
        ∧ (doc.docType = "revision_tecnica" ∨ doc.docType = "licencia_conducir"
            ∨ doc.docType = "cedula_conductor")
        ∧ ceilDiv (exp - now) msPerDay
            ≤ (if doc.docType = "revision_tecnica" then 5 else 30)
        ∧ e1 = mkExpiringDoc st now doc exp := by
    intro e1
    simp only [getExpiringDocuments]
    rw [List.mem_insertionSort, List.mem_filterMap]
    constructor
    · rintro ⟨doc, hmem, hf⟩
      refine ⟨doc, hmem, ?_⟩
      rcases hexp : doc.expiresAt with _ | exp
      · rw [hexp] at hf
        exact absurd hf (by simp)
      · rw [hexp] at hf
        rcases halert : alertDays doc.docType with _ | a
        · rw [halert] at hf
          exact absurd hf (by simp)
        · rw [halert] at hf
          simp only at hf
          obtain ⟨hdisj, ha⟩ := (alertDays_eq_some doc.docType a).mp halert
          by_cases hle : ceilDiv (exp - now) msPerDay ≤ a
          · rw [if_pos hle] at hf
            have he : mkExpiringDoc st now doc exp = e1 := by
              simpa using hf
            exact ⟨exp, rfl, hdisj, ha ▸ hle, he.symm⟩
          · rw [if_neg hle] at hf
            exact absurd hf (by simp)
    · rintro ⟨doc, hmem, exp, hexp, hdisj, hle, he⟩
      refine ⟨doc, hmem, ?_⟩
      rw [hexp]
      have halert : alertDays doc.docType
          = some (if doc.docType = "revision_tecnica" then 5 else 30) :=
        (alertDays_eq_some doc.docType _).mpr ⟨hdisj, rfl⟩
      rw [halert]
      simp only
      rw [if_pos hle, he]
  refine ⟨main e, ?_⟩
  intro e2 he2
  obtain ⟨doc, _, exp, _, hdisj, _, he⟩ := (main e2).mp he2
  rcases hdisj with h | h | h <;> simp [he, mkExpiringDoc, h]

/-- Witness for C5: the four-days-out technical revision document of
`exStoreDocs` appears in the scan. -/
theorem getExpiringDocuments_membership_witness :
    mkExpiringDoc exStoreDocs 0 exDoc 345600000 ∈ getExpiringDocuments 0 exStoreDocs := by
  refine (getExpiringDocuments_membership 0 exStoreDocs _).1.mpr ?_
  exact ⟨exDoc, by decide, 345600000, rfl, Or.inl rfl, by decide, rfl⟩

/-- C8: in both reports, `mostAffectedBuses` is the per-bus incident
count list of the respective window, sorted descending by count and
truncated — to at most five entries in the weekly report and to at most
six in the monthly report. -/
theorem reports_mostAffectedBuses (dw : Int) (dm : CivilDate) (st : Store) :
    (∃ full : List (String × Nat),
        full.Perm (busCountEntries (weekIncidents dw st) st.buses)
        ∧ List.Sorted (fun a b => b.2 ≤ a.2) full
        ∧ (getWeeklyReport dw st).mostAffectedBuses = full.take 5)
    ∧ (∃ full : List (String × Nat),
        full.Perm (busCountEntries (monthIncidents dm st) st.buses)
        ∧ List.Sorted (fun a b => b.2 ≤ a.2) full
        ∧ (getMonthlyReport dm st).mostAffectedBuses = full.take 6)
    ∧ (getWeeklyReport dw st).mostAffectedBuses.length ≤ 5
    ∧ (getMonthlyReport dm st).mostAffectedBuses.length ≤ 6 := by
  haveI hT : IsTotal (String × Nat) (fun a b => b.2 ≤ a.2) :=
    ⟨fun a b => Nat.le_total b.2 a.2⟩
  haveI hTr : IsTrans (String × Nat) (fun a b => b.2 ≤ a.2) :=
    ⟨fun _ _ _ h1 h2 => le_trans h2 h1⟩
  refine ⟨⟨_, List.perm_insertionSort _ _, List.sorted_insertionSort _ _, rfl⟩,
    ⟨_, List.perm_insertionSort _ _, List.sorted_insertionSort _ _, rfl⟩, ?_, ?_⟩
  · show ((List.insertionSort (fun a b : String × Nat => b.2 ≤ a.2)
        (busCountEntries (weekIncidents dw st) st.buses)).take 5).length ≤ 5
    rw [List.length_take]
    exact min_le_left _ _
  · show ((List.insertionSort (fun a b : String × Nat => b.2 ≤ a.2)
        (busCountEntries (monthIncidents dm st) st.buses)).take 6).length ≤ 6
    rw [List.length_take]
    exact min_le_left _ _

/-- Summing the per-key counts of a list over a duplicate-free key list
covering every element recovers its length. -/
theorem sum_count_keys {α : Type} [DecidableEq α] :
    ∀ ks ws : List α, ks.Nodup → (∀ w ∈ ws, w ∈ ks) →
      (ks.map (fun k => ws.count k)).sum = ws.length := by
  intro ks
  induction ks with
  | nil =>
    intro ws _ hcov
    have hnil : ws = [] :=
      List.eq_nil_iff_forall_not_mem.mpr (fun x hx => by simpa using hcov x hx)
    simp [hnil]
  | cons k ks ih =>
    intro ws hnd hcov
    have hnd' := List.nodup_cons.mp hnd
    have hstep : (ks.map (fun j => ws.count j)).sum
        = (ks.map (fun j => (ws.filter (fun w => !(w == k))).count j)).sum := by
      refine congrArg List.sum (List.map_congr_left (fun j hj => ?_))
      have hjk : ¬j = k := fun h => hnd'.1 (h ▸ hj)
      exact (List.count_filter (by simpa using hjk)).symm
    have hcov' : ∀ w ∈ ws.filter (fun w => !(w == k)), w ∈ ks := by
      intro w hw
      obtain ⟨hw1, hw2⟩ := List.mem_filter.mp hw
      rcases List.mem_cons.mp (hcov w hw1) with rfl | h
      · simp at hw2
      · exact h
    have hfun : (fun a : α => decide ¬((a == k) = true)) = (fun w => !(w == k)) := by
      funext a
      cases h : a == k <;> simp [h]
    have hlen := List.length_eq_countP_add_countP (fun x : α => x == k) ws
    rw [hfun, List.countP_eq_length_filter] at hlen
    rw [List.map_cons, List.sum_cons, hstep, ih _ hnd'.2 hcov',
      List.count_eq_countP, hlen, List.countP_eq_length_filter,
      List.countP_eq_length_filter]

/-- A `filterMap` whose function is defined on every element keeps the
length of the list. -/
theorem length_filterMap_isSome {α β : Type} (f : α → Option β) :
    ∀ l : List α, (∀ x ∈ l, (f x).isSome) → (l.filterMap f).length = l.length := by
  intro l
  induction l with
  | nil => intro _; rfl
  | cons a t ih =>
    intro h
    rcases hfa : f a with _ | b
    · exact absurd (h a (List.mem_cons_self a t)) (by simp [hfa])
    · simp [List.filterMap_cons, hfa, ih (fun x hx => h x (List.mem_cons_of_mem a hx))]

/-- Every incident the monthly report selects carries a reported date. -/
theorem monthIncidents_reportedAt_isSome (d : CivilDate) (st : Store) :
    ∀ i ∈ monthIncidents d st, (i.reportedAt.map getWeekFns).isSome := by
  intro i hi
  have hw := (List.mem_filter.mp hi).2
  rcases hr : i.reportedAt with _ | t
  · rw [hr] at hw
    simp [inWindow] at hw
  · simp [hr]

/-- C4 (as the code computes it): `getMonthlyReport` groups the monthly
incidents, selected by `reportedAt` within the calendar month, by the
date-fns default week number of the year (weeks start on Sunday, week 1
is the week containing January 1 — not the ISO week number), and
returns `weeklyTrend` as one `(week, count)` entry per occupied week
number, strictly ascending by week number, with the counts summing to
`totalIncidents`. -/
theorem monthlyReport_weeklyTrend_spec (d : CivilDate) (st : Store) :
    List.Pairwise (fun a b : Int × Nat => a.1 < b.1)
        (getMonthlyReport d st).weeklyTrend
    ∧ (∀ p ∈ (getMonthlyReport d st).weeklyTrend,
        p.1 ∈ monthWeeks d st ∧ p.2 = (monthWeeks d st).count p.1)
    ∧ (∀ w ∈ monthWeeks d st, ∃ c, (w, c) ∈ (getMonthlyReport d st).weeklyTrend)
    ∧ ((getMonthlyReport d st).weeklyTrend.map (fun p => p.2)).sum
        = (getMonthlyReport d st).totalIncidents := by
  have htrend : (getMonthlyReport d st).weeklyTrend
      = (List.insertionSort (fun a b => a ≤ b) (monthWeeks d st).dedup).map
          (fun w => (w, (monthWeeks d st).count w)) := rfl
  have hperm := List.perm_insertionSort (fun a b : Int => a ≤ b) (monthWeeks d st).dedup
  have hnd : (List.insertionSort (fun a b : Int => a ≤ b) (monthWeeks d st).dedup).Nodup :=
    hperm.nodup_iff.mpr (List.nodup_dedup _)
  have hsorted := List.sorted_insertionSort (fun a b : Int => a ≤ b) (monthWeeks d st).dedup
  have hstrict : List.Sorted (fun a b : Int => a < b)
      (List.insertionSort (fun a b : Int => a ≤ b) (monthWeeks d st).dedup) :=
    List.Sorted.lt_of_le hsorted hnd
  refine ⟨?_, ?_, ?_, ?_⟩
  · rw [htrend]
    exact List.pairwise_map.mpr hstrict
  · intro p hp
    rw [htrend] at hp
    obtain ⟨w, hw, hpw⟩ := List.mem_map.mp hp
    have hwmem : w ∈ monthWeeks d st :=
      List.mem_dedup.mp (hperm.mem_iff.mp hw)
    rw [← hpw]
    exact ⟨hwmem, rfl⟩
  · intro w hw
    refine ⟨(monthWeeks d st).count w, ?_⟩
    rw [htrend]
    exact List.mem_map_of_mem _
      ((List.mem_insertionSort _).mpr (List.mem_dedup.mpr hw))
  · rw [htrend, List.map_map]
    have hsum : ((List.insertionSort (fun a b : Int => a ≤ b)
        (monthWeeks d st).dedup).map (fun k => (monthWeeks d st).count k)).sum
        = (monthWeeks d st).length :=
      sum_count_keys _ _ hnd
        (fun w hw => (List.mem_insertionSort _).mpr (List.mem_dedup.mpr hw))
    have hlen : (monthWeeks d st).length = (monthIncidents d st).length :=
      length_filterMap_isSome _ _ (monthIncidents_reportedAt_isSome d st)
    calc ((List.insertionSort (fun a b : Int => a ≤ b) (monthWeeks d st).dedup).map
            ((fun p : Int × Nat => p.2) ∘ fun w => (w, (monthWeeks d st).count w))).sum
        = ((List.insertionSort (fun a b : Int => a ≤ b) (monthWeeks d st).dedup).map
            (fun k => (monthWeeks d st).count k)).sum := rfl
      _ = (monthWeeks d st).length := hsum
      _ = (monthIncidents d st).length := hlen
      _ = (getMonthlyReport d st).totalIncidents := rfl

/-- Witness for C4 at the concrete July 2023 store: week 27 is occupied
and carries an entry in the trend. -/
theorem monthlyReport_weeklyTrend_spec_witness :
    (27 : Int) ∈ monthWeeks ⟨2023, 7, 15⟩ exStoreJuly
    ∧ ∃ c, ((27 : Int), c) ∈ (getMonthlyReport ⟨2023, 7, 15⟩ exStoreJuly).weeklyTrend := by
  refine ⟨by decide, ?_⟩
  exact (monthlyReport_weeklyTrend_spec ⟨2023, 7, 15⟩ exStoreJuly).2.2.1 27 (by decide)

/-- Counterexample for C4 as stated: on the July 2023 store, the code
buckets the Sunday 2023-07-02 incident together with the Monday
2023-07-03 one into Sunday-starting week 27, `weeklyTrend = [(27, 2)]`,
while grouping the very same selected incidents by their ISO week
number of year yields `[(26, 1), (27, 1)]` — so `weeklyTrend` is not
the ISO-week grouping the claim describes. -/
theorem monthlyReport_weeklyTrend_not_iso :
    (getMonthlyReport ⟨2023, 7, 15⟩ exStoreJuly).weeklyTrend = [(27, 2)]
    ∧ specIsoWeeklyTrend ⟨2023, 7, 15⟩ exStoreJuly = [(26, 1), (27, 1)]
    ∧ (getMonthlyReport ⟨2023, 7, 15⟩ exStoreJuly).weeklyTrend
        ≠ specIsoWeeklyTrend ⟨2023, 7, 15⟩ exStoreJuly :=
  ⟨by decide, by decide, by decide⟩

end GM
